import Mathlib

/-!
A shallow embedding of the NFT supply-integrity validator
(metadata/validate_supply.py) together with proofs about its behaviour.

Modelling choices:
* Filenames and string values are lists of characters.
* A directory is `none` when it does not exist, otherwise the list of its
  entries in iteration order; each entry records its name, whether it is a
  regular file, and the outcome of opening it and parsing it as JSON.
* The result of json.load on a metadata file is modelled as either a parsed
  document (a JSON object with an optional "image" field and an "attributes"
  field) or an error message, covering both read errors and parse errors.
* Python dictionaries are association lists with insert-or-overwrite
  (dictInsert), preserving Python's insertion-order semantics.
* Python sets over identifiers are Finsets; sorted(s) is Finset.sort.
* The regular expression ID_RE matching names of the shape digits dot png
  or digits dot json (case-insensitive) is idMatch; digits are the ASCII
  decimal digits, parsed in base 10 (digitsVal).
-/

namespace ValidateSupply

/-- A filename or string value, as a list of characters. -/
abbrev FName := List Char

/-- A JSON value held in a metadata field: a string, or some non-string value. -/
inductive JVal where
  | str (s : FName)
  | other
  deriving DecidableEq

/-- A parsed metadata document: a JSON object with an optional image field and
an attributes field (a sequence of trait-type and value pairs). -/
structure MetaDoc where
  image : Option JVal
  attributes : List (FName × FName)
  deriving DecidableEq

/-- The outcome of opening a file and running json.load on it: a parsed
document, or the text of the exception raised while reading or parsing. -/
inductive Content where
  | ok (doc : MetaDoc)
  | error (msg : FName)
  deriving DecidableEq

/-- A directory entry: its name, whether it is a regular file, and the content
outcome obtained when the validator opens it. -/
structure Entry where
  name : FName
  isFile : Bool
  content : Content
  deriving DecidableEq

/-- A directory: none when it does not exist on the filesystem. -/
abbrev Dirent := Option (List Entry)

/-- Base-10 value of a digit string, as computed by Python int(). -/
def digitsVal (ds : FName) : Nat :=
  ds.foldl (fun a c => 10 * a + (c.toNat - 48)) 0

/-- Python pathlib suffix of a filename: the final dot together with what
follows it, provided the final dot is neither the first nor the last
character; otherwise the empty string. -/
def suffixOf (name : FName) : FName :=
  match name.reverse.findIdx? (fun c => c == '.') with
  | none => []
  | some j =>
    let i := name.length - 1 - j
    if 0 < i ∧ i + 1 < name.length then name.drop i else []

/-- The regular expression ID_RE from the source: a nonempty run of decimal
digits, a dot, then png or json compared case-insensitively, anchored at both
ends; on a hit it yields the base-10 value of the digit group. -/
def idMatch (name : FName) : Option Nat :=
  match name.dropWhile Char.isDigit with
  | c :: e =>
    if c = '.' ∧ name.takeWhile Char.isDigit ≠ [] ∧
        (e.map Char.toLower = "png".toList ∨ e.map Char.toLower = "json".toList)
    then some (digitsVal (name.takeWhile Char.isDigit)) else none
  | [] => none

/-- Insert-or-overwrite on an association list, mirroring assignment into a
Python dict: an existing key keeps its position and gets the new value, a new
key is appended at the end. -/
def dictInsert (m : List (Nat × Entry)) (k : Nat) (v : Entry) : List (Nat × Entry) :=
  if m.any (fun p => p.1 == k) then
    m.map (fun p => if p.1 == k then (k, v) else p)
  else m ++ [(k, v)]

/-- One iteration of the scanning loop of collect_ids: skip non-files, skip
files whose lower-cased pathlib suffix is not a recognized extension, skip
names the ID regular expression rejects, and otherwise store the file under
its parsed identifier. -/
def scanStep (exts : List FName) (mapping : List (Nat × Entry)) (p : Entry) :
    List (Nat × Entry) :=
  if ¬ p.isFile then mapping
  else if (suffixOf p.name).map Char.toLower ∉ exts then mapping
  else
    match idMatch p.name with
    | none => mapping
    | some tid => dictInsert mapping tid p

/-- collect_ids from the source: scan a directory for files named like an
integer followed by a recognized extension, returning the mapping from
identifier to file; a missing directory yields the empty mapping. -/
def collect_ids (folder : Dirent) (exts : List FName) : List (Nat × Entry) :=
  match folder with
  | none => []
  | some entries => entries.foldl (scanStep exts) []

/-- The recognized image extension set passed to collect_ids for images. -/
def pngExts : List FName := [".png".toList]

/-- The recognized metadata extension set passed to collect_ids for metadata. -/
def jsonExts : List FName := [".json".toList]

/-- Keys of a Python Counter in iteration order: first occurrences, in order. -/
def counterKeys (l : List FName) : List FName :=
  l.foldl (fun acc n => if n ∈ acc then acc else acc ++ [n]) []

/-- find_duplicates from the source: the lower-cased names of regular files
that occur more than once in the directory; a missing directory yields the
empty list. -/
def find_duplicates (folder : Dirent) : List FName :=
  match folder with
  | none => []
  | some entries =>
    let names := (entries.filter (fun p => p.isFile)).map (fun p => p.name.map Char.toLower)
    (counterKeys names).filter (fun n => 1 < names.count n)

/-- try_load_json from the source: true with an empty message on a document
that parses, false with the exception text otherwise. -/
def try_load_json (c : Content) : Bool × FName :=
  match c with
  | .ok _ => (true, [])
  | .error e => (false, e)

/-- Key set of an identifier mapping, as the Python set of dict keys. -/
def keysOf (m : List (Nat × Entry)) : Finset Nat := (m.map Prod.fst).toFinset

/-- missing_images from the source: metadata identifiers with no image,
sorted ascending. -/
def missingImagesOf (imageSet metaSet : Finset Nat) : List Nat :=
  Finset.sort (· ≤ ·) (metaSet \ imageSet)

/-- missing_meta from the source: image identifiers with no metadata,
sorted ascending. -/
def missingMetaOf (imageSet metaSet : Finset Nat) : List Nat :=
  Finset.sort (· ≤ ·) (imageSet \ metaSet)

/-- common from the source: identifiers present in both sets, sorted
ascending. -/
def commonOf (imageSet metaSet : Finset Nat) : List Nat :=
  Finset.sort (· ≤ ·) (imageSet ∩ metaSet)

/-- The identifier set viewed inside the integers, for comparison against an
expected range that may have negative explicit bounds. -/
def natsToInt (s : Finset Nat) : Finset Int := s.image (fun n : Nat => (n : Int))

/-- A gap list from the source: the expected contiguous range minus the
identifiers present, sorted ascending. -/
def gapOf (lo hi : Int) (s : Finset Nat) : List Int :=
  Finset.sort (· ≤ ·) (Finset.Icc lo hi \ natsToInt s)

/-- The command-line arguments that influence validation. -/
structure Args where
  min_id : Option Int
  max_id : Option Int
  check_image_field : Bool
  deriving DecidableEq

/-- The expected range of the source: each bound is the explicit argument when
given, otherwise the corresponding end of the sorted common list; the range
exists only when both bounds do. -/
def expectedOf (args : Args) (common : List Nat) : Option (Int × Int) :=
  match (match args.min_id with
         | some v => some v
         | none => common.head?.map (fun n => (n : Int))),
        (match args.max_id with
         | some v => some v
         | none => common.getLast?.map (fun n => (n : Int))) with
  | some lo, some hi => some (lo, hi)
  | _, _ => none

/-- A gap list as computed by the source: empty when no expected range was
determined, otherwise the range minus the present identifiers. -/
def gapListOf (exp : Option (Int × Int)) (s : Finset Nat) : List Int :=
  match exp with
  | some (lo, hi) => gapOf lo hi s
  | none => []

/-- One iteration of the JSON-validity loop of the source: look the metadata
file of the identifier up, run try_load_json on it, and report the identifier
with the error message on failure. -/
def badJsonAt (meta_ids : List (Nat × Entry)) (tid : Nat) : Option (Nat × FName) :=
  match List.lookup tid meta_ids with
  | some e =>
    match try_load_json e.content with
    | (ok, err) => if ok then none else some (tid, err)
  | none => none

/-- The JSON-validity pass of the source: walk the common identifiers in
order, run try_load_json on each one's metadata file, and collect the failing
identifiers with their error messages. -/
def badJsonOf (meta_ids : List (Nat × Entry)) (common : List Nat) :
    List (Nat × FName) :=
  common.filterMap (badJsonAt meta_ids)

/-- A recorded image-field mismatch: the offending field value (the empty
string standing for an absent field, as Python dict get supplies), or the
formatted text of an exception caught while reading or parsing. -/
inductive MismVal where
  | val (v : JVal)
  | readError (msg : FName)
  deriving DecidableEq

/-- Decimal rendering of an identifier, as Python string formatting does. -/
def natFName (n : Nat) : FName := Nat.toDigits 10 n

/-- The Boolean test on line 174 of the source, after Python operator
precedence: a non-string value always mismatches; a string mismatches when its
lower-cased text neither ends with slash id dot png nor with id dot png. -/
def mismCond (v : JVal) (tid : Nat) : Bool :=
  match v with
  | .other => true
  | .str s =>
    let ls := s.map Char.toLower
    (!(List.isSuffixOf ('/' :: (natFName tid ++ ".png".toList)) ls)) &&
      (!(List.isSuffixOf (natFName tid ++ ".png".toList) ls))

/-- One iteration of the optional image-field loop of the source: re-open and
re-parse the metadata file of the identifier; an exception is recorded as a
mismatch carrying the formatted error text, and otherwise the image field
(defaulted to the empty string) is recorded when mismCond holds of it. -/
def imageFieldMismatchAt (meta_ids : List (Nat × Entry)) (tid : Nat) :
    Option (Nat × MismVal) :=
  match List.lookup tid meta_ids with
  | none => none
  | some e =>
    match e.content with
    | .error msg =>
      some (tid, .readError ("(error reading: ".toList ++ msg ++ ")".toList))
    | .ok doc =>
      let img := (doc.image).getD (JVal.str [])
      if mismCond img tid then some (tid, .val img) else none

/-- The optional image-field pass of the source, over the common identifiers
in order. -/
def imageFieldMismatches (meta_ids : List (Nat × Entry)) (common : List Nat) :
    List (Nat × MismVal) :=
  common.filterMap (imageFieldMismatchAt meta_ids)

/-- The critical flag of line 191 of the source: missing images, or missing
metadata, or (a determined expected range and some gap), or invalid JSON. -/
def criticalOf (mi mm : List Nat) (exp : Option (Int × Int)) (gi gm : List Int)
    (bj : List (Nat × FName)) : Bool :=
  (!mi.isEmpty) || (!mm.isEmpty) ||
    (exp.isSome && ((!gi.isEmpty) || (!gm.isEmpty))) || (!bj.isEmpty)

/-- Everything the validator reports on a run that passes the preconditions,
together with the exit code of that run. -/
structure Report where
  img_dupes : List FName
  meta_dupes : List FName
  image_set : Finset Nat
  meta_set : Finset Nat
  missing_images : List Nat
  missing_meta : List Nat
  common : List Nat
  expected : Option (Int × Int)
  gap_images : List Int
  gap_meta : List Int
  bad_json : List (Nat × FName)
  mismatches : List (Nat × MismVal)
  exit_code : Nat
  deriving DecidableEq

/-- The body of main after the precondition checks: build every report list
exactly as the source does and derive the exit code from the critical flag. -/
def reportOf (imagesDir metadataDir : Dirent) (args : Args) : Report :=
  let image_ids := collect_ids imagesDir pngExts
  let meta_ids := collect_ids metadataDir jsonExts
  let image_set := keysOf image_ids
  let meta_set := keysOf meta_ids
  let missing_images := missingImagesOf image_set meta_set
  let missing_meta := missingMetaOf image_set meta_set
  let common := commonOf image_set meta_set
  let exp := expectedOf args common
  let gap_images := gapListOf exp image_set
  let gap_meta := gapListOf exp meta_set
  let bad_json := badJsonOf meta_ids common
  { img_dupes := find_duplicates imagesDir
    meta_dupes := find_duplicates metadataDir
    image_set := image_set
    meta_set := meta_set
    missing_images := missing_images
    missing_meta := missing_meta
    common := common
    expected := exp
    gap_images := gap_images
    gap_meta := gap_meta
    bad_json := bad_json
    mismatches :=
      if args.check_image_field then imageFieldMismatches meta_ids common else []
    exit_code :=
      if criticalOf missing_images missing_meta exp gap_images gap_meta bad_json
      then 2 else 0 }

/-- The outcome of a whole run: stopped at a failed precondition (exit 1,
nothing further computed), or completed with a report. -/
inductive RunResult where
  | precondFail
  | completed (r : Report)
  deriving DecidableEq

/-- main from the source: scan both directories; an empty image mapping or an
empty metadata mapping aborts the run, and otherwise the full report is
produced. -/
def runValidator (imagesDir metadataDir : Dirent) (args : Args) : RunResult :=
  if (collect_ids imagesDir pngExts).isEmpty then .precondFail
  else if (collect_ids metadataDir jsonExts).isEmpty then .precondFail
  else .completed (reportOf imagesDir metadataDir args)

/-- The process exit status of a run. -/
def exitCodeOf : RunResult → Nat
  | .precondFail => 1
  | .completed r => r.exit_code

/-- The exit status of the validator on the given directories and arguments. -/
def validatorExit (imagesDir metadataDir : Dirent) (args : Args) : Nat :=
  exitCodeOf (runValidator imagesDir metadataDir args)

/-- The acceptance test applied to one directory entry by the scanning loop:
the identifier the entry is stored under, if the loop does not skip it. -/
def scanId (exts : List FName) (p : Entry) : Option Nat :=
  if p.isFile = true ∧ (suffixOf p.name).map Char.toLower ∈ exts
  then idMatch p.name else none

/-- Written from the specification of the image-field check, not from the
code: for an identifier in common, look its metadata file up; a read or parse
error is recorded as a mismatch carrying the formatted error text; otherwise a
mismatch is recorded exactly when the image field is absent, is not a string,
or its lower-cased value ends neither with the identifier followed by dot png
nor with a path separator, the identifier and dot png; the recorded value is
the field value as retrieved, an absent field standing for the empty string. -/
def specImageMismatch (meta_ids : List (Nat × Entry)) (tid : Nat) :
    Option (Nat × MismVal) :=
  match List.lookup tid meta_ids with
  | none => none
  | some e =>
    match e.content with
    | .error msg =>
      some (tid, .readError ("(error reading: ".toList ++ msg ++ ")".toList))
    | .ok doc =>
      match doc.image with
      | none => some (tid, .val (JVal.str []))
      | some JVal.other => some (tid, .val JVal.other)
      | some (JVal.str s) =>
        if List.isSuffixOf (natFName tid ++ ".png".toList) (s.map Char.toLower) ∨
            List.isSuffixOf ('/' :: (natFName tid ++ ".png".toList)) (s.map Char.toLower)
        then none
        else some (tid, .val (JVal.str s))

/-- Attribute erasure on a parsed document: the image field survives, the
attributes are dropped. -/
def eraseDoc (d : MetaDoc) : MetaDoc :=
  { image := d.image, attributes := [] }

/-- Attribute erasure on a content outcome: parse errors are untouched. -/
def eraseContent : Content → Content
  | .ok d => .ok (eraseDoc d)
  | .error e => .error e

/-- Attribute erasure on a directory entry. -/
def eraseEntry (e : Entry) : Entry :=
  { name := e.name, isFile := e.isFile, content := eraseContent e.content }

/-- Attribute erasure on a directory: two directories are identical except
for attribute values inside documents exactly when their erasures agree. -/
def eraseDir : Dirent → Dirent
  | none => none
  | some l => some (l.map eraseEntry)

/-! Concrete fixtures for the witness instances. -/

/-- A sample image entry. -/
def sampleImg (nm : String) : Entry :=
  { name := nm.toList, isFile := true, content := .ok { image := none, attributes := [] } }

/-- A sample metadata entry whose document's image field is the given string. -/
def sampleMeta (nm img : String) : Entry :=
  { name := nm.toList, isFile := true,
    content := .ok { image := some (.str img.toList), attributes := [] } }

/-- A sample metadata entry that fails to read or parse. -/
def sampleBad (nm msg : String) : Entry :=
  { name := nm.toList, isFile := true, content := .error msg.toList }

/-- A one-image directory. -/
def dirOneImg : Dirent := some [sampleImg "1.png"]

/-- A one-file metadata directory matching dirOneImg. -/
def dirOneMeta : Dirent := some [sampleMeta "1.json" "1.png"]

/-- A metadata directory whose only identifier is 2, disjoint from dirOneImg. -/
def dirOtherMeta : Dirent := some [sampleMeta "2.json" "2.png"]

/-! Projections of the report, all definitional. -/

theorem reportOf_image_set (a b : Dirent) (args : Args) :
    (reportOf a b args).image_set = keysOf (collect_ids a pngExts) := rfl

theorem reportOf_meta_set (a b : Dirent) (args : Args) :
    (reportOf a b args).meta_set = keysOf (collect_ids b jsonExts) := rfl

theorem reportOf_missing_images (a b : Dirent) (args : Args) :
    (reportOf a b args).missing_images =
      missingImagesOf (keysOf (collect_ids a pngExts)) (keysOf (collect_ids b jsonExts)) := rfl

theorem reportOf_missing_meta (a b : Dirent) (args : Args) :
    (reportOf a b args).missing_meta =
      missingMetaOf (keysOf (collect_ids a pngExts)) (keysOf (collect_ids b jsonExts)) := rfl

theorem reportOf_common (a b : Dirent) (args : Args) :
    (reportOf a b args).common =
      commonOf (keysOf (collect_ids a pngExts)) (keysOf (collect_ids b jsonExts)) := rfl

theorem reportOf_expected (a b : Dirent) (args : Args) :
    (reportOf a b args).expected = expectedOf args (reportOf a b args).common := rfl

theorem reportOf_gap_images (a b : Dirent) (args : Args) :
    (reportOf a b args).gap_images =
      gapListOf (reportOf a b args).expected (reportOf a b args).image_set := rfl

theorem reportOf_gap_meta (a b : Dirent) (args : Args) :
    (reportOf a b args).gap_meta =
      gapListOf (reportOf a b args).expected (reportOf a b args).meta_set := rfl

theorem reportOf_bad_json (a b : Dirent) (args : Args) :
    (reportOf a b args).bad_json =
      badJsonOf (collect_ids b jsonExts) (reportOf a b args).common := rfl

theorem reportOf_mismatches (a b : Dirent) (args : Args) :
    (reportOf a b args).mismatches =
      (if args.check_image_field then
        imageFieldMismatches (collect_ids b jsonExts) (reportOf a b args).common
       else []) := rfl

theorem reportOf_exit_code (a b : Dirent) (args : Args) :
    (reportOf a b args).exit_code =
      (if criticalOf (reportOf a b args).missing_images (reportOf a b args).missing_meta
            (reportOf a b args).expected (reportOf a b args).gap_images
            (reportOf a b args).gap_meta (reportOf a b args).bad_json
       then 2 else 0) := rfl

/-! Small generic helpers. -/

theorem not_isEmpty_iff {α : Type} (l : List α) : (!l.isEmpty) = true ↔ l ≠ [] := by
  cases l <;> simp

theorem gapListOf_none (s : Finset Nat) : gapListOf none s = [] := rfl

/-- The critical flag agrees with plain nonemptiness of the five report lists,
because both gap lists are empty whenever no expected range was determined. -/
theorem criticalOf_iff (mi mm : List Nat) (exp : Option (Int × Int))
    (si sm : Finset Nat) (bj : List (Nat × FName)) :
    criticalOf mi mm exp (gapListOf exp si) (gapListOf exp sm) bj = true ↔
      (mi ≠ [] ∨ mm ≠ [] ∨ gapListOf exp si ≠ [] ∨ gapListOf exp sm ≠ [] ∨ bj ≠ []) := by
  cases exp with
  | none =>
    simp only [criticalOf, gapListOf_none, Bool.or_eq_true, Bool.and_eq_true,
      not_isEmpty_iff]
    simp
    tauto
  | some p =>
    simp only [criticalOf, Option.isSome_some, Bool.true_and, Bool.or_eq_true,
      not_isEmpty_iff]
    tauto

/-- The critical flag with empty gap lists reduces to the other three lists. -/
theorem criticalOf_nil_gaps (mi mm : List Nat) (exp : Option (Int × Int))
    (bj : List (Nat × FName)) :
    criticalOf mi mm exp [] [] bj = (!mi.isEmpty || !mm.isEmpty || !bj.isEmpty) := by
  simp [criticalOf]

/-- Membership in a gap list, spelled out. -/
theorem mem_gapOf (lo hi : Int) (s : Finset Nat) (i : Int) :
    i ∈ gapOf lo hi s ↔ lo ≤ i ∧ i ≤ hi ∧ ∀ n ∈ s, (n : Int) ≠ i := by
  simp only [gapOf, Finset.mem_sort, Finset.mem_sdiff, Finset.mem_Icc, natsToInt,
    Finset.mem_image, not_exists]
  constructor
  · rintro ⟨⟨h1, h2⟩, h3⟩
    exact ⟨h1, h2, fun n hn => fun he => h3 n ⟨hn, he⟩⟩
  · rintro ⟨h1, h2, h3⟩
    exact ⟨⟨h1, h2⟩, fun n hn => h3 n hn.1 hn.2⟩

/-- C1. The validator's exit code is fully determined as follows: exit 1 when
the scanned image-identifier mapping is empty or the scanned
metadata-identifier mapping is empty (the precondition failure, on which no
report is built); otherwise exit 2 exactly when at least one of
missing_images, missing_meta, gap_images, gap_meta, or the invalid-JSON list
is nonempty; otherwise exit 0. The right-hand side never consults the
duplicate-filename lists, so duplicate filenames alone never produce a
non-zero exit. -/
theorem exit_code_fully_determined (a b : Dirent) (args : Args) :
    validatorExit a b args =
      if collect_ids a pngExts = [] ∨ collect_ids b jsonExts = [] then 1
      else if (reportOf a b args).missing_images ≠ [] ∨
              (reportOf a b args).missing_meta ≠ [] ∨
              (reportOf a b args).gap_images ≠ [] ∨
              (reportOf a b args).gap_meta ≠ [] ∨
              (reportOf a b args).bad_json ≠ [] then 2 else 0 := by
  unfold validatorExit runValidator
  by_cases h1 : collect_ids a pngExts = []
  · simp [h1, exitCodeOf]
  · by_cases h2 : collect_ids b jsonExts = []
    · simp [h1, h2, exitCodeOf]
    · have hne1 : (collect_ids a pngExts).isEmpty = false := by
        cases h : collect_ids a pngExts with
        | nil => exact absurd h h1
        | cons x xs => simp
      have hne2 : (collect_ids b jsonExts).isEmpty = false := by
        cases h : collect_ids b jsonExts with
        | nil => exact absurd h h2
        | cons x xs => simp
      rw [hne1]
      simp only [Bool.false_eq_true, if_false, hne2, exitCodeOf]
      rw [if_neg (by tauto : ¬ (collect_ids a pngExts = [] ∨ collect_ids b jsonExts = []))]
      rw [reportOf_exit_code a b args]
      have hiff := criticalOf_iff (reportOf a b args).missing_images
        (reportOf a b args).missing_meta (reportOf a b args).expected
        (reportOf a b args).image_set (reportOf a b args).meta_set
        (reportOf a b args).bad_json
      rw [← reportOf_gap_images, ← reportOf_gap_meta] at hiff
      by_cases hc : criticalOf (reportOf a b args).missing_images
          (reportOf a b args).missing_meta (reportOf a b args).expected
          (reportOf a b args).gap_images (reportOf a b args).gap_meta
          (reportOf a b args).bad_json = true
      · rw [if_pos hc, if_pos (hiff.mp hc)]
      · rw [if_neg hc, if_neg (fun hd => hc (hiff.mpr hd))]

/-- C2. Reconciliation of the two identifier mappings: common is the sorted
intersection of the key sets, missing_images the sorted difference metadata
minus images, missing_meta the sorted difference images minus metadata; the
three underlying sets are pairwise disjoint and their union is the union of
the two key sets. -/
theorem reconcile_partition (imgs metas : List (Nat × Entry)) :
    List.Sorted (· ≤ ·) (commonOf (keysOf imgs) (keysOf metas)) ∧
    List.Sorted (· ≤ ·) (missingImagesOf (keysOf imgs) (keysOf metas)) ∧
    List.Sorted (· ≤ ·) (missingMetaOf (keysOf imgs) (keysOf metas)) ∧
    (∀ x, x ∈ commonOf (keysOf imgs) (keysOf metas) ↔
      x ∈ keysOf imgs ∧ x ∈ keysOf metas) ∧
    (∀ x, x ∈ missingImagesOf (keysOf imgs) (keysOf metas) ↔
      x ∈ keysOf metas ∧ x ∉ keysOf imgs) ∧
    (∀ x, x ∈ missingMetaOf (keysOf imgs) (keysOf metas) ↔
      x ∈ keysOf imgs ∧ x ∉ keysOf metas) ∧
    Disjoint (keysOf metas \ keysOf imgs) (keysOf imgs \ keysOf metas) ∧
    Disjoint (keysOf metas \ keysOf imgs) (keysOf imgs ∩ keysOf metas) ∧
    Disjoint (keysOf imgs \ keysOf metas) (keysOf imgs ∩ keysOf metas) ∧
    (keysOf metas \ keysOf imgs) ∪ (keysOf imgs \ keysOf metas) ∪
        (keysOf imgs ∩ keysOf metas) =
      keysOf imgs ∪ keysOf metas := by
  refine ⟨Finset.sort_sorted _ _, Finset.sort_sorted _ _, Finset.sort_sorted _ _,
    ?_, ?_, ?_, ?_, ?_, ?_, ?_⟩
  · intro x
    simp [commonOf, Finset.mem_sort]
  · intro x
    simp [missingImagesOf, Finset.mem_sort]
  · intro x
    simp [missingMetaOf, Finset.mem_sort]
  · rw [Finset.disjoint_left]
    intro x hx hy
    rw [Finset.mem_sdiff] at hx hy
    exact hx.2 hy.1
  · rw [Finset.disjoint_left]
    intro x hx hy
    rw [Finset.mem_sdiff] at hx
    rw [Finset.mem_inter] at hy
    exact hx.2 hy.1
  · rw [Finset.disjoint_left]
    intro x hx hy
    rw [Finset.mem_sdiff] at hx
    rw [Finset.mem_inter] at hy
    exact hx.2 hy.2
  · ext x
    simp only [Finset.mem_union, Finset.mem_sdiff, Finset.mem_inter]
    tauto

/-- C3. With both bounds supplied explicitly, the gap computation uses exactly
the interval from min_id to max_id, whatever common contains: each gap list is
the sorted difference between that interval and the respective key set, and
membership in it means lying in the interval while being absent from the
respective mapping. -/
theorem explicit_range_gap_computation (a b : Dirent) (args : Args) (lo hi : Int)
    (hmin : args.min_id = some lo) (hmax : args.max_id = some hi) :
    (reportOf a b args).gap_images = gapOf lo hi (reportOf a b args).image_set ∧
    (reportOf a b args).gap_meta = gapOf lo hi (reportOf a b args).meta_set ∧
    List.Sorted (· ≤ ·) (reportOf a b args).gap_images ∧
    List.Sorted (· ≤ ·) (reportOf a b args).gap_meta ∧
    (∀ i : Int, i ∈ (reportOf a b args).gap_images ↔
      lo ≤ i ∧ i ≤ hi ∧ ∀ n ∈ (reportOf a b args).image_set, (n : Int) ≠ i) ∧
    (∀ i : Int, i ∈ (reportOf a b args).gap_meta ↔
      lo ≤ i ∧ i ≤ hi ∧ ∀ n ∈ (reportOf a b args).meta_set, (n : Int) ≠ i) := by
  have hexp : (reportOf a b args).expected = some (lo, hi) := by
    rw [reportOf_expected]
    simp [expectedOf, hmin, hmax]
  have hgi : (reportOf a b args).gap_images = gapOf lo hi (reportOf a b args).image_set := by
    rw [reportOf_gap_images, hexp]
    rfl
  have hgm : (reportOf a b args).gap_meta = gapOf lo hi (reportOf a b args).meta_set := by
    rw [reportOf_gap_meta, hexp]
    rfl
  refine ⟨hgi, hgm, ?_, ?_, ?_, ?_⟩
  · rw [hgi]
    exact Finset.sort_sorted _ _
  · rw [hgm]
    exact Finset.sort_sorted _ _
  · intro i
    rw [hgi]
    exact mem_gapOf lo hi _ i
  · intro i
    rw [hgm]
    exact mem_gapOf lo hi _ i

/-- C7. When common is empty and neither bound was supplied, no expected range
is determined, both gap lists are empty, and the exit code is 2 exactly when
one of the other three report lists is nonempty, so the skipped gap checks
contribute nothing. -/
theorem empty_common_skips_gap_checks (a b : Dirent) (args : Args)
    (hmin : args.min_id = none) (hmax : args.max_id = none)
    (hc : (reportOf a b args).common = []) :
    (reportOf a b args).expected = none ∧
    (reportOf a b args).gap_images = [] ∧
    (reportOf a b args).gap_meta = [] ∧
    ((reportOf a b args).exit_code = 2 ↔
      ((reportOf a b args).missing_images ≠ [] ∨
       (reportOf a b args).missing_meta ≠ [] ∨
       (reportOf a b args).bad_json ≠ [])) := by
  have hexp : (reportOf a b args).expected = none := by
    rw [reportOf_expected, hc]
    simp [expectedOf, hmin, hmax]
  have hgi : (reportOf a b args).gap_images = [] := by
    rw [reportOf_gap_images, hexp]
    rfl
  have hgm : (reportOf a b args).gap_meta = [] := by
    rw [reportOf_gap_meta, hexp]
    rfl
  refine ⟨hexp, hgi, hgm, ?_⟩
  rw [reportOf_exit_code a b args, hgi, hgm, criticalOf_nil_gaps]
  have hb : ((!(reportOf a b args).missing_images.isEmpty ||
      !(reportOf a b args).missing_meta.isEmpty ||
      !(reportOf a b args).bad_json.isEmpty) = true) ↔
      ((reportOf a b args).missing_images ≠ [] ∨
       (reportOf a b args).missing_meta ≠ [] ∨
       (reportOf a b args).bad_json ≠ []) := by
    simp only [Bool.or_eq_true, not_isEmpty_iff]
    tauto
  by_cases hd : (reportOf a b args).missing_images ≠ [] ∨
      (reportOf a b args).missing_meta ≠ [] ∨
      (reportOf a b args).bad_json ≠ []
  · rw [if_pos (hb.mpr hd)]
    simp [hd]
  · rw [if_neg (fun hbt => hd (hb.mp hbt))]
    simp [hd]

/-- C10. With both bounds supplied and min_id greater than max_id, the
expected interval is empty, both gap lists are empty, and the exit code is 2
exactly when one of the other three report lists is nonempty: the inverted
range is not itself reported and can never cause a failing exit. -/
theorem inverted_range_empty_gaps (a b : Dirent) (args : Args) (lo hi : Int)
    (hmin : args.min_id = some lo) (hmax : args.max_id = some hi)
    (hlt : hi < lo) :
    (reportOf a b args).gap_images = [] ∧
    (reportOf a b args).gap_meta = [] ∧
    ((reportOf a b args).exit_code = 2 ↔
      ((reportOf a b args).missing_images ≠ [] ∨
       (reportOf a b args).missing_meta ≠ [] ∨
       (reportOf a b args).bad_json ≠ [])) := by
  have hempty : Finset.Icc lo hi = (∅ : Finset Int) := Finset.Icc_eq_empty (by omega)
  have hgap : ∀ s : Finset Nat, gapOf lo hi s = [] := by
    intro s
    rw [gapOf, hempty]
    simp
  obtain ⟨hgi', hgm', _, _, _, _⟩ :=
    explicit_range_gap_computation a b args lo hi hmin hmax
  have hgi : (reportOf a b args).gap_images = [] := by rw [hgi', hgap]
  have hgm : (reportOf a b args).gap_meta = [] := by rw [hgm', hgap]
  refine ⟨hgi, hgm, ?_⟩
  rw [reportOf_exit_code a b args, hgi, hgm, criticalOf_nil_gaps]
  have hb : ((!(reportOf a b args).missing_images.isEmpty ||
      !(reportOf a b args).missing_meta.isEmpty ||
      !(reportOf a b args).bad_json.isEmpty) = true) ↔
      ((reportOf a b args).missing_images ≠ [] ∨
       (reportOf a b args).missing_meta ≠ [] ∨
       (reportOf a b args).bad_json ≠ []) := by
    simp only [Bool.or_eq_true, not_isEmpty_iff]
    tauto
  by_cases hd : (reportOf a b args).missing_images ≠ [] ∨
      (reportOf a b args).missing_meta ≠ [] ∨
      (reportOf a b args).bad_json ≠ []
  · rw [if_pos (hb.mpr hd)]
    simp [hd]
  · rw [if_neg (fun hbt => hd (hb.mp hbt))]
    simp [hd]

/-- Witness instance for the exit-code characterization on concrete directories. -/
theorem exit_code_fully_determined_witness :
    validatorExit dirOneImg dirOneMeta { min_id := none, max_id := none, check_image_field := false } =
      if collect_ids dirOneImg pngExts = [] ∨ collect_ids dirOneMeta jsonExts = [] then 1
      else if (reportOf dirOneImg dirOneMeta { min_id := none, max_id := none, check_image_field := false }).missing_images ≠ [] ∨
              (reportOf dirOneImg dirOneMeta { min_id := none, max_id := none, check_image_field := false }).missing_meta ≠ [] ∨
              (reportOf dirOneImg dirOneMeta { min_id := none, max_id := none, check_image_field := false }).gap_images ≠ [] ∨
              (reportOf dirOneImg dirOneMeta { min_id := none, max_id := none, check_image_field := false }).gap_meta ≠ [] ∨
              (reportOf dirOneImg dirOneMeta { min_id := none, max_id := none, check_image_field := false }).bad_json ≠ [] then 2 else 0 :=
  exit_code_fully_determined dirOneImg dirOneMeta
    { min_id := none, max_id := none, check_image_field := false }

/-- Witness instance of the reconciliation partition on concrete mappings. -/
theorem reconcile_partition_witness :
    List.Sorted (· ≤ ·)
      (commonOf (keysOf (collect_ids dirOneImg pngExts))
        (keysOf (collect_ids dirOneMeta jsonExts))) :=
  (reconcile_partition (collect_ids dirOneImg pngExts)
    (collect_ids dirOneMeta jsonExts)).1

/-- Witness instance of the explicit-range gap computation with a range wider
than any present identifier. -/
theorem explicit_range_gap_computation_witness :
    (reportOf dirOneImg dirOneMeta { min_id := some 1, max_id := some 3, check_image_field := false }).gap_images =
      gapOf 1 3 (reportOf dirOneImg dirOneMeta
        { min_id := some 1, max_id := some 3, check_image_field := false }).image_set :=
  (explicit_range_gap_computation dirOneImg dirOneMeta
    { min_id := some 1, max_id := some 3, check_image_field := false } 1 3 rfl rfl).1

/-- Witness instance of the empty-common policy on disjoint directories. -/
theorem empty_common_skips_gap_checks_witness :
    (reportOf dirOneImg dirOtherMeta { min_id := none, max_id := none, check_image_field := false }).expected = none ∧
    (reportOf dirOneImg dirOtherMeta { min_id := none, max_id := none, check_image_field := false }).gap_images = [] ∧
    (reportOf dirOneImg dirOtherMeta { min_id := none, max_id := none, check_image_field := false }).gap_meta = [] ∧
    ((reportOf dirOneImg dirOtherMeta { min_id := none, max_id := none, check_image_field := false }).exit_code = 2 ↔
      ((reportOf dirOneImg dirOtherMeta { min_id := none, max_id := none, check_image_field := false }).missing_images ≠ [] ∨
       (reportOf dirOneImg dirOtherMeta { min_id := none, max_id := none, check_image_field := false }).missing_meta ≠ [] ∨
       (reportOf dirOneImg dirOtherMeta { min_id := none, max_id := none, check_image_field := false }).bad_json ≠ [])) :=
  empty_common_skips_gap_checks dirOneImg dirOtherMeta
    { min_id := none, max_id := none, check_image_field := false } rfl rfl
    (by
      rw [reportOf_common, commonOf,
        show keysOf (collect_ids dirOneImg pngExts) ∩
            keysOf (collect_ids dirOtherMeta jsonExts) = ∅ from by decide]
      exact Finset.sort_empty _)

/-- Witness instance of the inverted-range behaviour. -/
theorem inverted_range_empty_gaps_witness :
    (reportOf dirOneImg dirOneMeta { min_id := some 7, max_id := some 5, check_image_field := false }).gap_images = [] ∧
    (reportOf dirOneImg dirOneMeta { min_id := some 7, max_id := some 5, check_image_field := false }).gap_meta = [] ∧
    ((reportOf dirOneImg dirOneMeta { min_id := some 7, max_id := some 5, check_image_field := false }).exit_code = 2 ↔
      ((reportOf dirOneImg dirOneMeta { min_id := some 7, max_id := some 5, check_image_field := false }).missing_images ≠ [] ∨
       (reportOf dirOneImg dirOneMeta { min_id := some 7, max_id := some 5, check_image_field := false }).missing_meta ≠ [] ∨
       (reportOf dirOneImg dirOneMeta { min_id := some 7, max_id := some 5, check_image_field := false }).bad_json ≠ [])) :=
  inverted_range_empty_gaps dirOneImg dirOneMeta
    { min_id := some 7, max_id := some 5, check_image_field := false } 7 5 rfl rfl
    (by norm_num)

/-! Lemmas about the scanning loop. -/

theorem scanStep_eq (exts : List FName) (m : List (Nat × Entry)) (p : Entry) :
    scanStep exts m p =
      match scanId exts p with
      | none => m
      | some tid => dictInsert m tid p := by
  by_cases hf : p.isFile = true
  · by_cases hs : (suffixOf p.name).map Char.toLower ∈ exts
    · cases h : idMatch p.name with
      | none => simp [scanStep, scanId, hf, hs, h]
      | some tid => simp [scanStep, scanId, hf, hs, h]
    · simp [scanStep, scanId, hf, hs]
  · simp [scanStep, scanId, hf]

theorem scanStep_eq_none (exts : List FName) (m : List (Nat × Entry)) (p : Entry)
    (h : scanId exts p = none) : scanStep exts m p = m := by
  rw [scanStep_eq, h]

theorem scanStep_eq_some (exts : List FName) (m : List (Nat × Entry)) (p : Entry)
    (tid : Nat) (h : scanId exts p = some tid) :
    scanStep exts m p = dictInsert m tid p := by
  rw [scanStep_eq, h]

theorem scanId_some (exts : List FName) (p : Entry) (k : Nat)
    (h : scanId exts p = some k) :
    p.isFile = true ∧ (suffixOf p.name).map Char.toLower ∈ exts ∧
      idMatch p.name = some k := by
  unfold scanId at h
  by_cases hc : p.isFile = true ∧ (suffixOf p.name).map Char.toLower ∈ exts
  · rw [if_pos hc] at h
    exact ⟨hc.1, hc.2, h⟩
  · rw [if_neg hc] at h
    cases h

theorem idMatch_some (name : FName) (k : Nat) (h : idMatch name = some k) :
    k = digitsVal (name.takeWhile Char.isDigit) := by
  unfold idMatch at h
  split at h
  · split at h
    · exact (Option.some_inj.mp h).symm
    · cases h
  · cases h

theorem mem_dictInsert (m : List (Nat × Entry)) (k : Nat) (v : Entry)
    (q : Nat × Entry) (hq : q ∈ dictInsert m k v) : q ∈ m ∨ q = (k, v) := by
  unfold dictInsert at hq
  by_cases h : m.any (fun p => p.1 == k)
  · rw [if_pos h] at hq
    rcases List.mem_map.mp hq with ⟨p, hp, he⟩
    by_cases hk : (p.1 == k) = true
    · right
      rw [← he, if_pos hk]
    · left
      rw [← he, if_neg hk]
      exact hp
  · rw [if_neg h] at hq
    rcases List.mem_append.mp hq with h1 | h1
    · exact Or.inl h1
    · exact Or.inr (by simpa using h1)

theorem mem_foldl_scanStep (exts : List FName) (l : List Entry) :
    ∀ (m0 : List (Nat × Entry)) (q : Nat × Entry),
      q ∈ l.foldl (scanStep exts) m0 →
      q ∈ m0 ∨ ∃ p ∈ l, scanId exts p = some q.1 ∧ q.2 = p := by
  induction l with
  | nil =>
    intro m0 q h
    exact Or.inl h
  | cons p rest ih =>
    intro m0 q h
    rw [List.foldl_cons] at h
    rcases ih _ q h with h1 | ⟨p', hp', hs, he⟩
    · cases hsi : scanId exts p with
      | none =>
        rw [scanStep_eq_none exts m0 p hsi] at h1
        exact Or.inl h1
      | some tid =>
        rw [scanStep_eq_some exts m0 p tid hsi] at h1
        rcases mem_dictInsert _ _ _ _ h1 with h2 | h2
        · exact Or.inl h2
        · subst h2
          exact Or.inr ⟨p, List.mem_cons_self p rest, hsi, rfl⟩
    · exact Or.inr ⟨p', List.mem_cons_of_mem p hp', hs, he⟩

/-- C4. Soundness of the directory scanner: a missing directory yields the
empty mapping (no error is possible), and every binding of the result comes
from a regular file of the directory whose lower-cased suffix is recognized
and whose name the anchored digits-dot-extension pattern accepts, the key
being the base-10 parse of the digit prefix of that name; hence files whose
names do not match never contribute. -/
theorem collect_ids_sound (entries : List Entry) (exts : List FName) :
    collect_ids none exts = [] ∧
    ∀ k e, (k, e) ∈ collect_ids (some entries) exts →
      e ∈ entries ∧ e.isFile = true ∧
      (suffixOf e.name).map Char.toLower ∈ exts ∧
      idMatch e.name = some k ∧
      k = digitsVal (e.name.takeWhile Char.isDigit) := by
  refine ⟨rfl, ?_⟩
  intro k e h
  rcases mem_foldl_scanStep exts entries [] (k, e) h with h1 | ⟨p, hp, hs, he⟩
  · cases h1
  · have he' : e = p := he
    subst he'
    obtain ⟨hf, hsuf, hm⟩ := scanId_some exts e k hs
    exact ⟨hp, hf, hsuf, hm, idMatch_some e.name k hm⟩

/-- Witness instance of scanner soundness: the single binding produced by a
one-file directory satisfies every soundness conjunct. -/
theorem collect_ids_sound_witness :
    sampleImg "1.png" ∈ [sampleImg "1.png"] ∧
    (sampleImg "1.png").isFile = true ∧
    (suffixOf (sampleImg "1.png").name).map Char.toLower ∈ pngExts ∧
    idMatch (sampleImg "1.png").name = some 1 ∧
    1 = digitsVal ((sampleImg "1.png").name.takeWhile Char.isDigit) :=
  (collect_ids_sound [sampleImg "1.png"] pngExts).2 1 (sampleImg "1.png") (by decide)

/-! Lookup lemmas for the Python dict model. -/

theorem lookup_map_overwrite (m : List (Nat × Entry)) (k : Nat) (v : Entry) :
    List.lookup k (m.map (fun p => if p.1 == k then (k, v) else p)) =
      if m.any (fun p => p.1 == k) then some v else List.lookup k m := by
  induction m with
  | nil => simp
  | cons p rest ih =>
    obtain ⟨k1, v1⟩ := p
    by_cases hk : k1 = k
    · subst hk
      simp [List.lookup_cons_self]
    · have hb : (k1 == k) = false := beq_eq_false_iff_ne.mpr hk
      have hb2 : (k == k1) = false := beq_eq_false_iff_ne.mpr fun he => hk he.symm
      simp [hk, hb, hb2, List.lookup_cons]
      rw [hb]
      simpa using ih

theorem lookup_map_overwrite_ne (m : List (Nat × Entry)) (k k' : Nat) (v : Entry)
    (h : k' ≠ k) :
    List.lookup k' (m.map (fun p => if p.1 == k then (k, v) else p)) =
      List.lookup k' m := by
  induction m with
  | nil => simp
  | cons p rest ih =>
    obtain ⟨k1, v1⟩ := p
    rw [List.map_cons]
    by_cases hk : k1 = k
    · have hb : ((k1, v1).1 == k) = true := beq_iff_eq.mpr hk
      rw [if_pos hb]
      have h1 : (k' == k) = false := beq_eq_false_iff_ne.mpr h
      have h2 : (k' == k1) = false :=
        beq_eq_false_iff_ne.mpr fun he => h (he.trans hk)
      simp only [List.lookup_cons, h1, h2]
      exact ih
    · have hb : ((k1, v1).1 == k) = false := beq_eq_false_iff_ne.mpr hk
      rw [if_neg (by simp [hb])]
      simp only [List.lookup_cons]
      cases hk2 : (k' == k1) with
      | true => rfl
      | false => exact ih

theorem lookup_append_single (m : List (Nat × Entry)) (k : Nat) (v : Entry) :
    m.any (fun p => p.1 == k) = false → List.lookup k (m ++ [(k, v)]) = some v := by
  induction m with
  | nil =>
    intro _
    simp
  | cons p rest ih =>
    obtain ⟨k1, v1⟩ := p
    intro h
    simp only [List.any_cons, Bool.or_eq_false_iff] at h
    have hne : k1 ≠ k := by simpa using h.1
    have hb2 : (k == k1) = false := beq_eq_false_iff_ne.mpr fun he => hne he.symm
    rw [List.cons_append]
    simp only [List.lookup_cons, hb2]
    exact ih h.2

theorem lookup_append_single_ne (m : List (Nat × Entry)) (k k' : Nat) (v : Entry)
    (h : k' ≠ k) :
    List.lookup k' (m ++ [(k, v)]) = List.lookup k' m := by
  induction m with
  | nil =>
    have h1 : (k' == k) = false := beq_eq_false_iff_ne.mpr h
    simp [List.lookup_cons, h1]
  | cons p rest ih =>
    obtain ⟨k1, v1⟩ := p
    rw [List.cons_append]
    simp only [List.lookup_cons]
    cases hk2 : (k' == k1) with
    | true => rfl
    | false => exact ih

theorem lookup_dictInsert_self (m : List (Nat × Entry)) (k : Nat) (v : Entry) :
    List.lookup k (dictInsert m k v) = some v := by
  unfold dictInsert
  by_cases h : m.any (fun p => p.1 == k) = true
  · rw [if_pos h, lookup_map_overwrite, if_pos h]
  · rw [if_neg h]
    exact lookup_append_single m k v (Bool.eq_false_iff.mpr h)

theorem lookup_dictInsert_ne (m : List (Nat × Entry)) (k k' : Nat) (v : Entry)
    (h : k' ≠ k) : List.lookup k' (dictInsert m k v) = List.lookup k' m := by
  unfold dictInsert
  by_cases hany : m.any (fun p => p.1 == k) = true
  · rw [if_pos hany]
    exact lookup_map_overwrite_ne m k k' v h
  · rw [if_neg hany]
    exact lookup_append_single_ne m k k' v h

/-- Lookup into the scanned mapping is last-write-wins: it returns the last
accepted file of the iteration that parses to the requested identifier. -/
theorem lookup_foldl_scanStep (exts : List FName) (k : Nat) (l : List Entry) :
    ∀ m0 : List (Nat × Entry),
      List.lookup k (l.foldl (scanStep exts) m0) =
        match (l.filter (fun p => scanId exts p == some k)).getLast? with
        | some p => some p
        | none => List.lookup k m0 := by
  induction l using List.reverseRecOn with
  | nil =>
    intro m0
    simp
  | append_singleton l p ih =>
    intro m0
    rw [List.foldl_append, List.foldl_cons, List.foldl_nil, List.filter_append]
    cases hsi : scanId exts p with
    | none =>
      have hf : List.filter (fun q => scanId exts q == some k) [p] = [] := by
        simp [hsi]
      rw [scanStep_eq_none exts _ p hsi, hf, List.append_nil, ih]
    | some tid =>
      rw [scanStep_eq_some exts _ p tid hsi]
      by_cases htid : tid = k
      · subst htid
        have hf : List.filter (fun q => scanId exts q == some tid) [p] = [p] := by
          simp [hsi]
        rw [hf, lookup_dictInsert_self, List.getLast?_concat]
      · have hf : List.filter (fun q => scanId exts q == some k) [p] = [] := by
          simp [hsi, htid]
        rw [hf, List.append_nil,
          lookup_dictInsert_ne _ _ _ _ (fun he => htid he.symm), ih]

theorem keys_dictInsert (m : List (Nat × Entry)) (k : Nat) (v : Entry) :
    (dictInsert m k v).map Prod.fst =
      if m.any (fun p => p.1 == k) then m.map Prod.fst
      else m.map Prod.fst ++ [k] := by
  unfold dictInsert
  by_cases h : m.any (fun p => p.1 == k) = true
  · rw [if_pos h, if_pos h, List.map_map]
    apply List.map_congr_left
    intro p _
    by_cases hk : (p.1 == k) = true
    · simp only [Function.comp_apply, if_pos hk]
      exact (by simpa using hk : p.1 = k).symm
    · simp only [Function.comp_apply, if_neg hk]
  · rw [if_neg h, if_neg h]
    simp

theorem keys_nodup_foldl (exts : List FName) (l : List Entry) :
    ∀ m0 : List (Nat × Entry), (m0.map Prod.fst).Nodup →
      ((l.foldl (scanStep exts) m0).map Prod.fst).Nodup := by
  induction l with
  | nil =>
    intro m0 h
    exact h
  | cons p rest ih =>
    intro m0 h
    rw [List.foldl_cons]
    cases hsi : scanId exts p with
    | none =>
      rw [scanStep_eq_none exts m0 p hsi]
      exact ih m0 h
    | some tid =>
      rw [scanStep_eq_some exts m0 p tid hsi]
      apply ih
      rw [keys_dictInsert]
      by_cases hany : m0.any (fun q => q.1 == tid) = true
      · rw [if_pos hany]
        exact h
      · rw [if_neg hany]
        have hmem : tid ∉ m0.map Prod.fst := by
          intro hmem
          rcases List.mem_map.mp hmem with ⟨q, hq, he⟩
          exact hany (List.any_eq_true.mpr ⟨q, hq, by simp [he]⟩)
        simp [List.nodup_append, h, hmem]

theorem mem_keys_iff_lookup (k : Nat) (m : List (Nat × Entry)) :
    k ∈ m.map Prod.fst ↔ (List.lookup k m).isSome := by
  induction m with
  | nil => simp
  | cons p rest ih =>
    obtain ⟨k1, v1⟩ := p
    by_cases hk : k = k1
    · subst hk
      simp
    · have hb : (k == k1) = false := beq_eq_false_iff_ne.mpr hk
      simp [List.lookup_cons, hb, hk, ih]

/-- C8. Leading-zero collision: whenever a directory listing holds regular
files named 01.png and 1.png, the scanned mapping has exactly one binding for
identifier 1, and looking it up yields the last accepted file of the iteration
that parses to 1 — the later of the colliding files wins silently, with no
error value anywhere in the result. -/
theorem leading_zero_last_write_wins (l : List Entry) (e01 e1 : Entry)
    (h01 : e01 ∈ l) (h1 : e1 ∈ l)
    (hn01 : e01.name = "01.png".toList) (hn1 : e1.name = "1.png".toList)
    (hf01 : e01.isFile = true) (hf1 : e1.isFile = true) :
    ((collect_ids (some l) pngExts).map Prod.fst).count 1 = 1 ∧
    List.lookup 1 (collect_ids (some l) pngExts) =
      (l.filter (fun p => scanId pngExts p == some 1)).getLast? := by
  have hs01 : scanId pngExts e01 = some 1 := by
    unfold scanId
    rw [hn01, hf01]
    decide
  have hmemf : e01 ∈ l.filter (fun p => scanId pngExts p == some 1) :=
    List.mem_filter.mpr ⟨h01, by simp [hs01]⟩
  have hfne : l.filter (fun p => scanId pngExts p == some 1) ≠ [] :=
    List.ne_nil_of_mem hmemf
  obtain ⟨p, hp⟩ := Option.isSome_iff_exists.mp
    (List.getLast?_isSome.mpr hfne)
  have hcoll : collect_ids (some l) pngExts = l.foldl (scanStep pngExts) [] := rfl
  have hlook : List.lookup 1 (collect_ids (some l) pngExts) =
      (l.filter (fun q => scanId pngExts q == some 1)).getLast? := by
    rw [hcoll, lookup_foldl_scanStep pngExts 1 l [], hp]
  refine ⟨?_, hlook⟩
  have hnodup : ((collect_ids (some l) pngExts).map Prod.fst).Nodup := by
    rw [hcoll]
    exact keys_nodup_foldl pngExts l [] (by simp)
  have hmemk : (1 : Nat) ∈ (collect_ids (some l) pngExts).map Prod.fst := by
    rw [mem_keys_iff_lookup, hlook, hp]
    rfl
  exact List.count_eq_one_of_mem hnodup hmemk

/-- Witness instance of the leading-zero collision on a two-file directory:
the later file 1.png is the one stored for identifier 1. -/
theorem leading_zero_last_write_wins_witness :
    (((collect_ids (some [sampleImg "01.png", sampleImg "1.png"]) pngExts).map Prod.fst).count 1 = 1 ∧
     List.lookup 1 (collect_ids (some [sampleImg "01.png", sampleImg "1.png"]) pngExts) =
       ([sampleImg "01.png", sampleImg "1.png"].filter
         (fun p => scanId pngExts p == some 1)).getLast?) ∧
    List.lookup 1 (collect_ids (some [sampleImg "01.png", sampleImg "1.png"]) pngExts) =
      some (sampleImg "1.png") :=
  ⟨leading_zero_last_write_wins [sampleImg "01.png", sampleImg "1.png"]
    (sampleImg "01.png") (sampleImg "1.png") (by decide) (by decide) rfl rfl rfl rfl,
   by decide⟩

/-! The JSON-validity and image-field passes. -/

/-- C6. The invalid-JSON list is exactly the failures of the common
identifiers: a pair joins it precisely when its identifier is common and its
metadata file's content is an error with that message; thus orphaned metadata
files (no matching image) are never examined by this pass, and every failing
common identifier is recorded without stopping the walk. -/
theorem bad_json_characterization (a b : Dirent) (args : Args) (tid : Nat)
    (msg : FName) :
    (tid, msg) ∈ (reportOf a b args).bad_json ↔
      (tid ∈ (reportOf a b args).common ∧
       ∃ e, List.lookup tid (collect_ids b jsonExts) = some e ∧
         e.content = Content.error msg) := by
  rw [reportOf_bad_json]
  unfold badJsonOf
  rw [List.mem_filterMap]
  constructor
  · rintro ⟨t, ht, hf⟩
    unfold badJsonAt at hf
    cases hl : List.lookup t (collect_ids b jsonExts) with
    | none =>
      rw [hl] at hf
      cases hf
    | some e =>
      rw [hl] at hf
      dsimp only at hf
      cases hc : e.content with
      | ok doc =>
        rw [hc] at hf
        simp [try_load_json] at hf
      | error m =>
        rw [hc] at hf
        simp only [try_load_json, Bool.false_eq_true, if_false,
          Option.some_inj, Prod.mk.injEq] at hf
        obtain ⟨h1, h2⟩ := hf
        subst h1
        subst h2
        exact ⟨ht, e, hl, hc⟩
  · rintro ⟨ht, e, hl, hc⟩
    refine ⟨tid, ht, ?_⟩
    unfold badJsonAt
    rw [hl]
    dsimp only
    rw [hc]
    simp [try_load_json]

/-- Witness instance of the invalid-JSON characterization on a directory pair
holding one unparsable metadata file. -/
theorem bad_json_characterization_witness :
    (1, "boom".toList) ∈ (reportOf dirOneImg (some [sampleBad "1.json" "boom"])
        { min_id := none, max_id := none, check_image_field := false }).bad_json ↔
      ((1 : Nat) ∈ (reportOf dirOneImg (some [sampleBad "1.json" "boom"])
          { min_id := none, max_id := none, check_image_field := false }).common ∧
       ∃ e, List.lookup 1 (collect_ids (some [sampleBad "1.json" "boom"]) jsonExts) = some e ∧
         e.content = Content.error "boom".toList) :=
  bad_json_characterization dirOneImg (some [sampleBad "1.json" "boom"])
    { min_id := none, max_id := none, check_image_field := false } 1 ("boom".toList)

/-! Equivalence of the image-field pass with its specification. -/

theorem pat_ne_nil (tid : Nat) : natFName tid ++ ".png".toList ≠ [] := by
  intro h
  have h2 := (List.append_eq_nil.mp h).2
  exact absurd h2 (by decide)

theorem isSuffixOf_nil_false (pat : FName) (h : pat ≠ []) :
    List.isSuffixOf pat ([] : FName) = false := by
  rw [Bool.eq_false_iff]
  intro hs
  exact h (List.suffix_nil.mp (List.isSuffixOf_iff_suffix.mp hs))

theorem imageFieldMismatchAt_eq_spec (meta_ids : List (Nat × Entry)) (tid : Nat) :
    imageFieldMismatchAt meta_ids tid = specImageMismatch meta_ids tid := by
  unfold imageFieldMismatchAt specImageMismatch
  cases List.lookup tid meta_ids with
  | none => rfl
  | some e =>
    dsimp only
    cases e.content with
    | error msg => rfl
    | ok doc =>
      dsimp only
      cases doc.image with
      | none =>
        have h1 : List.isSuffixOf ('/' :: (natFName tid ++ ".png".toList))
            ([] : FName) = false := isSuffixOf_nil_false _ (by simp)
        have h2 : List.isSuffixOf (natFName tid ++ ".png".toList)
            ([] : FName) = false := isSuffixOf_nil_false _ (pat_ne_nil tid)
        simp [mismCond, h1, h2]
      | some v =>
        cases v with
        | other => simp [mismCond]
        | str s =>
          simp only [mismCond]
          cases hA : List.isSuffixOf ('/' :: (natFName tid ++ ".png".toList))
              (List.map Char.toLower s) <;>
            cases hB : List.isSuffixOf (natFName tid ++ ".png".toList)
                (List.map Char.toLower s) <;>
              simp_all

theorem imageFieldMismatches_eq_spec (meta_ids : List (Nat × Entry))
    (common : List Nat) :
    imageFieldMismatches meta_ids common =
      common.filterMap (specImageMismatch meta_ids) := by
  unfold imageFieldMismatches
  rw [show imageFieldMismatchAt meta_ids = specImageMismatch meta_ids from
    funext (fun tid => imageFieldMismatchAt_eq_spec meta_ids tid)]

/-- C5. When the image-field check is enabled, the recorded mismatch list is
exactly the one dictated by the specification: for every common identifier, a
read or parse error is recorded as a mismatch carrying the error text, and
otherwise a mismatch is recorded exactly when the image field is absent, not a
string, or (case-insensitively) ends neither with the identifier dot png nor
with a path separator preceding it. -/
theorem image_field_mismatch_spec (a b : Dirent) (args : Args)
    (hflag : args.check_image_field = true) :
    (reportOf a b args).mismatches =
      (reportOf a b args).common.filterMap
        (specImageMismatch (collect_ids b jsonExts)) := by
  rw [reportOf_mismatches, if_pos hflag]
  exact imageFieldMismatches_eq_spec (collect_ids b jsonExts) (reportOf a b args).common

/-- Witness instance of the image-field pass specification with the check
enabled on a mismatching document. -/
theorem image_field_mismatch_spec_witness :
    (reportOf dirOneImg (some [sampleMeta "1.json" "ipfs://x/50.png"])
        { min_id := none, max_id := none, check_image_field := true }).mismatches =
      (reportOf dirOneImg (some [sampleMeta "1.json" "ipfs://x/50.png"])
          { min_id := none, max_id := none, check_image_field := true }).common.filterMap
        (specImageMismatch (collect_ids (some [sampleMeta "1.json" "ipfs://x/50.png"]) jsonExts)) :=
  image_field_mismatch_spec dirOneImg (some [sampleMeta "1.json" "ipfs://x/50.png"])
    { min_id := none, max_id := none, check_image_field := true } rfl

/-! Attribute erasure commutes with every stage of the pipeline. -/

theorem isEmpty_map {α β : Type} (f : α → β) (l : List α) :
    (l.map f).isEmpty = l.isEmpty := by
  cases l <;> rfl

theorem dictInsert_map_erase (m : List (Nat × Entry)) (k : Nat) (v : Entry) :
    dictInsert (m.map (fun q => (q.1, eraseEntry q.2))) k (eraseEntry v) =
      (dictInsert m k v).map (fun q => (q.1, eraseEntry q.2)) := by
  unfold dictInsert
  have hany : ((m.map (fun q => (q.1, eraseEntry q.2))).any (fun p => p.1 == k)) =
      (m.any (fun p => p.1 == k)) := by
    rw [List.any_map]
    rfl
  rw [hany]
  by_cases h : m.any (fun p => p.1 == k) = true
  · rw [if_pos h, if_pos h, List.map_map, List.map_map]
    apply List.map_congr_left
    intro p _
    by_cases hk : (p.1 == k) = true
    · simp [Function.comp, hk]
    · simp [Function.comp, hk]
  · rw [if_neg h, if_neg h, List.map_append]
    rfl

theorem scanId_erase (exts : List FName) (p : Entry) :
    scanId exts (eraseEntry p) = scanId exts p := rfl

theorem scanStep_map_erase (exts : List FName) (m : List (Nat × Entry)) (p : Entry) :
    scanStep exts (m.map (fun q => (q.1, eraseEntry q.2))) (eraseEntry p) =
      (scanStep exts m p).map (fun q => (q.1, eraseEntry q.2)) := by
  rw [scanStep_eq, scanStep_eq, scanId_erase]
  cases scanId exts p with
  | none => rfl
  | some tid => exact dictInsert_map_erase m tid p

theorem collect_ids_eraseDir (d : Dirent) (exts : List FName) :
    collect_ids (eraseDir d) exts =
      (collect_ids d exts).map (fun q => (q.1, eraseEntry q.2)) := by
  cases d with
  | none => rfl
  | some l =>
    have key : ∀ (l2 : List Entry) (m0 : List (Nat × Entry)),
        l2.foldl (fun m p => scanStep exts m (eraseEntry p))
            (m0.map (fun q => (q.1, eraseEntry q.2))) =
          (l2.foldl (scanStep exts) m0).map (fun q => (q.1, eraseEntry q.2)) := by
      intro l2
      induction l2 with
      | nil =>
        intro m0
        rfl
      | cons p rest ih =>
        intro m0
        rw [List.foldl_cons, List.foldl_cons, scanStep_map_erase]
        exact ih (scanStep exts m0 p)
    show (l.map eraseEntry).foldl (scanStep exts) [] =
      (l.foldl (scanStep exts) []).map (fun q => (q.1, eraseEntry q.2))
    rw [List.foldl_map]
    have := key l []
    simpa using this

theorem keysOf_map_erase (m : List (Nat × Entry)) :
    keysOf (m.map (fun q => (q.1, eraseEntry q.2))) = keysOf m := by
  unfold keysOf
  rw [List.map_map]
  rfl

theorem lookup_map_erase (k : Nat) (m : List (Nat × Entry)) :
    List.lookup k (m.map (fun q => (q.1, eraseEntry q.2))) =
      (List.lookup k m).map eraseEntry := by
  induction m with
  | nil => rfl
  | cons p rest ih =>
    obtain ⟨k1, v1⟩ := p
    rw [List.map_cons]
    simp only [List.lookup_cons]
    cases hk : (k == k1) with
    | true => rfl
    | false => exact ih

theorem badJsonAt_erase (meta_ids : List (Nat × Entry)) (tid : Nat) :
    badJsonAt (meta_ids.map (fun q => (q.1, eraseEntry q.2))) tid =
      badJsonAt meta_ids tid := by
  unfold badJsonAt
  rw [lookup_map_erase]
  cases List.lookup tid meta_ids with
  | none => rfl
  | some e =>
    dsimp only [Option.map_some]
    cases hc : e.content with
    | ok doc => simp [eraseEntry, eraseContent, hc, try_load_json]
    | error m => simp [eraseEntry, eraseContent, hc, try_load_json]

theorem imageFieldMismatchAt_erase (meta_ids : List (Nat × Entry)) (tid : Nat) :
    imageFieldMismatchAt (meta_ids.map (fun q => (q.1, eraseEntry q.2))) tid =
      imageFieldMismatchAt meta_ids tid := by
  unfold imageFieldMismatchAt
  rw [lookup_map_erase]
  cases List.lookup tid meta_ids with
  | none => rfl
  | some e =>
    dsimp only [Option.map_some]
    cases hc : e.content with
    | error m => simp [eraseEntry, eraseContent, hc]
    | ok doc => simp [eraseEntry, eraseContent, eraseDoc, hc]

theorem badJsonOf_map_erase (meta_ids : List (Nat × Entry)) (common : List Nat) :
    badJsonOf (meta_ids.map (fun q => (q.1, eraseEntry q.2))) common =
      badJsonOf meta_ids common := by
  unfold badJsonOf
  rw [show badJsonAt (meta_ids.map (fun q => (q.1, eraseEntry q.2))) =
    badJsonAt meta_ids from funext (fun tid => badJsonAt_erase meta_ids tid)]

theorem imageFieldMismatches_map_erase (meta_ids : List (Nat × Entry))
    (common : List Nat) :
    imageFieldMismatches (meta_ids.map (fun q => (q.1, eraseEntry q.2))) common =
      imageFieldMismatches meta_ids common := by
  unfold imageFieldMismatches
  rw [show imageFieldMismatchAt (meta_ids.map (fun q => (q.1, eraseEntry q.2))) =
    imageFieldMismatchAt meta_ids from
    funext (fun tid => imageFieldMismatchAt_erase meta_ids tid)]

theorem find_duplicates_eraseDir (d : Dirent) :
    find_duplicates (eraseDir d) = find_duplicates d := by
  cases d with
  | none => rfl
  | some l =>
    have hnames : ((l.map eraseEntry).filter (fun p => p.isFile)).map
        (fun p => p.name.map Char.toLower) =
        (l.filter (fun p => p.isFile)).map (fun p => p.name.map Char.toLower) := by
      rw [List.filter_map, List.map_map]
      rfl
    show (counterKeys (((l.map eraseEntry).filter (fun p => p.isFile)).map
        (fun p => p.name.map Char.toLower))).filter
        (fun n => 1 < (((l.map eraseEntry).filter (fun p => p.isFile)).map
          (fun p => p.name.map Char.toLower)).count n) =
      (counterKeys ((l.filter (fun p => p.isFile)).map
        (fun p => p.name.map Char.toLower))).filter
        (fun n => 1 < ((l.filter (fun p => p.isFile)).map
          (fun p => p.name.map Char.toLower)).count n)
    rw [hnames]

theorem reportOf_eraseDir (a b : Dirent) (args : Args) :
    reportOf (eraseDir a) (eraseDir b) args = reportOf a b args := by
  simp only [reportOf]
  rw [collect_ids_eraseDir a pngExts, collect_ids_eraseDir b jsonExts,
    keysOf_map_erase, keysOf_map_erase,
    find_duplicates_eraseDir a, find_duplicates_eraseDir b,
    badJsonOf_map_erase, imageFieldMismatches_map_erase]

/-- C9. The validator never inspects the attributes field: two runs whose
directories agree after attribute erasure — that is, are identical except for
the attribute values inside documents that remain parseable — produce the
same outcome: the same exit code and the same value of every report list,
including the missing, gap, invalid-JSON and image-field-mismatch lists; in
particular two tokens with identical trait combinations never cause a
failure by themselves. -/
theorem attributes_never_inspected (a a2 b b2 : Dirent) (args : Args)
    (ha : eraseDir a = eraseDir a2) (hb : eraseDir b = eraseDir b2) :
    runValidator a b args = runValidator a2 b2 args := by
  have key : ∀ x y : Dirent,
      runValidator (eraseDir x) (eraseDir y) args = runValidator x y args := by
    intro x y
    unfold runValidator
    rw [collect_ids_eraseDir x pngExts, collect_ids_eraseDir y jsonExts,
      isEmpty_map, isEmpty_map, reportOf_eraseDir]
  rw [← key a b, ha, hb, key a2 b2]

/-- Witness instance of attribute irrelevance: two metadata directories that
differ only in a trait value produce identical runs, with the image-field
check enabled. -/
theorem attributes_never_inspected_witness :
    runValidator dirOneImg
      (some [{ name := "1.json".toList, isFile := true,
               content := .ok { image := some (.str "1.png".toList),
                                attributes := [("Background".toList, "Gold".toList)] } }])
      { min_id := none, max_id := none, check_image_field := true } =
    runValidator dirOneImg
      (some [{ name := "1.json".toList, isFile := true,
               content := .ok { image := some (.str "1.png".toList),
                                attributes := [("Background".toList, "Blue".toList)] } }])
      { min_id := none, max_id := none, check_image_field := true } :=
  attributes_never_inspected dirOneImg dirOneImg
    (some [{ name := "1.json".toList, isFile := true,
             content := .ok { image := some (.str "1.png".toList),
                              attributes := [("Background".toList, "Gold".toList)] } }])
    (some [{ name := "1.json".toList, isFile := true,
             content := .ok { image := some (.str "1.png".toList),
                              attributes := [("Background".toList, "Blue".toList)] } }])
    { min_id := none, max_id := none, check_image_field := true }
    rfl (by decide)

end ValidateSupply
